import Mathlib

/-!
Verification development for the paygo email ingestion and
invoice-classification pipeline.

The definitions below are a shallow embedding of the TypeScript source:
- the Gmail MIME tree walkers (`getEmailBody`, `extractEmailBody`),
- the per-message attachment materializer (`processEmail`),
- the batch fetcher (`getEmails`) and the classification forwarder
  (`processEmailWithVerification`, `verifyInvoicePOST`),
- the dev-mode session/token store and the OAuth handlers
  (`authGoogleCallback`, `authDisconnect`, the find-or-create profile step),
- the MongoDB-backed CRUD routes for profiles and mails.

Remote effects (the Gmail API, the FastAPI classifier, base64 decoding of
attachment bytes, `encodeURIComponent`) are modelled as explicit oracle
parameters; everything else is translated directly from the source.
JavaScript truthiness of optional strings (absent or empty both falsy) is
modelled by `truthyOpt`.
-/

namespace Paygo

/-- JS truthiness of an optional string: `undefined`, `null` and `""` are
falsy, every other string is truthy. -/
def truthyOpt : Option String → Bool
  | none => false
  | some s => s ≠ ""

/-- `a || b` on optional strings, as JS evaluates it (falsy left operand
falls through to the right operand). -/
def orTruthy (a b : Option String) : Option String :=
  if truthyOpt a then a else b

/-! ## MIME tree model

A Gmail `payload` is a loosely-typed nested object.  Each part carries a
`mimeType`, possibly a `filename`, a list of headers, possibly a `body`
(with `size`, base64url `data`, and possibly an `attachmentId`), and
possibly a list of child `parts`. -/

/-- The `body` object of a Gmail message part. -/
structure BodyInfo where
  size : Nat
  data : Option String
  attachmentId : Option String
  deriving Repr, DecidableEq

/-- A Gmail message part (`payload` or any nested part). -/
inductive Payload where
  | mk (mimeType : String) (filename : String)
       (headers : List (String × String))
       (body : Option BodyInfo)
       (parts : Option (List Payload))

def Payload.mimeType : Payload → String
  | .mk m _ _ _ _ => m

def Payload.filename : Payload → String
  | .mk _ f _ _ _ => f

def Payload.headers : Payload → List (String × String)
  | .mk _ _ h _ _ => h

def Payload.body : Payload → Option BodyInfo
  | .mk _ _ _ b _ => b

def Payload.parts : Payload → Option (List Payload)
  | .mk _ _ _ _ p => p

/-- `part.body?.data` as a truthy value. -/
def Payload.bodyData (p : Payload) : Option String :=
  p.body.bind (·.data)

/-- `decodeBase64Url`: replace the base64url alphabet by the base64 one and
decode.  The `Buffer.from(_, 'base64').toString('utf-8')` step is the
oracle `dec`. -/
def decodeBase64Url (dec : String → String) (data : String) : String :=
  dec (String.mk ((data.toList.map fun c => if c = '-' then '+' else c).map
        fun c => if c = '_' then '/' else c))

/-- `toLowerCase()` on a header name (header names are ASCII, where the
JS and the per-character lowering agree). -/
def lowerString (s : String) : String :=
  String.mk (s.toList.map Char.toLower)

/-- `getHeader`: case-insensitive lookup of a header value, `''` when the
header is missing. -/
def getHeader (headers : List (String × String)) (name : String) : String :=
  match headers.find? fun h => lowerString h.1 = lowerString name with
  | some h => h.2
  | none => ""

/-- `parseEmailAddress`: the source matches `^"?(.+?)"?\s*<(.+?)>$` and
falls back to the bare string for both fields.  The regex split is kept
abstract as the oracle `splitAddr`; only the fallback shape matters to the
claims. -/
def parseEmailAddress (splitAddr : String → Option (String × String))
    (emailString : String) : String × String :=
  match splitAddr emailString with
  | some nm => nm
  | none => (emailString, emailString)

/-- HTML-escape `<` and `>` as `getEmailBody` does
(`.replace(/</g,'&lt;').replace(/>/g,'&gt;')`). -/
def escapeAngles (s : String) : String :=
  String.join (s.toList.map fun c =>
    if c = '<' then "&lt;" else if c = '>' then "&gt;" else String.mk [c])

/-- The fixed-width wrapper `getEmailBody` puts around plain text. -/
def wrapPlainText (s : String) : String :=
  "<div style=\"white-space: pre-wrap; font-family: monospace;\">"
    ++ escapeAngles s ++ "</div>"

/-- Root-body condition of `getEmailBody`:
`payload.body?.size > 0 && payload.body.data`. -/
def rootBodyTruthy (p : Payload) : Bool :=
  match p.body with
  | some b => decide (0 < b.size) && truthyOpt b.data
  | none => false

theorem Payload.sizeOf_parts_lt (p : Payload) (l : List Payload)
    (h : p.parts = some l) : sizeOf l < sizeOf p := by
  cases p with
  | mk m f hs b ps =>
    simp only [Payload.parts] at h
    subst h
    simp only [Payload.mk.sizeOf_spec, Option.some.sizeOf_spec]
    omega

mutual

/-- `getEmailBody` from the source: root body first, then a direct
`text/html` child with data, then a `text/plain` child with data
(escaped and wrapped), then the first non-empty recursive resolution,
else `''`. -/
def getEmailBody (dec : String → String) (p : Payload) : String :=
  if rootBodyTruthy p then
    decodeBase64Url dec ((p.bodyData).getD "")
  else
    match h : p.parts with
    | none => ""
    | some parts =>
      let htmlPart := parts.find? fun q => q.mimeType = "text/html"
      let textPart := parts.find? fun q => q.mimeType = "text/plain"
      if truthyOpt (htmlPart.bind Payload.bodyData) then
        decodeBase64Url dec (((htmlPart.bind Payload.bodyData)).getD "")
      else if truthyOpt (textPart.bind Payload.bodyData) then
        wrapPlainText
          (decodeBase64Url dec (((textPart.bind Payload.bodyData)).getD ""))
      else
        getEmailBodyLoop dec parts
termination_by sizeOf p
decreasing_by
  exact Payload.sizeOf_parts_lt p parts h

/-- The `for (const part of payload.parts)` fallback loop of
`getEmailBody`: first non-empty nested body wins. -/
def getEmailBodyLoop (dec : String → String) : List Payload → String
  | [] => ""
  | q :: rest =>
    let nested := getEmailBody dec q
    if nested ≠ "" then nested else getEmailBodyLoop dec rest
termination_by l => sizeOf l
decreasing_by
  all_goals simp
  omega

end

/-! ## Body resolution re-stated from the specification (claim C3)

`bodyResolutionClaim` follows the wording of the spec's §4.4 algorithm:
root body first; then among the direct children prefer a usable
`text/html` leaf, falling back to a usable `text/plain` leaf rendered in
the escaped fixed-width container; then depth-first recursion where the
first non-empty resolution wins; empty string otherwise. -/

/-- The direct-child leaf the spec says to render: `html` when a usable
`text/html` child exists, else `plain` for a usable `text/plain` child. -/
inductive PreferredLeaf where
  | html (data : String)
  | plain (data : String)
  deriving Repr, DecidableEq

/-- Step 2 of the spec algorithm: candidate selection among the direct
children. -/
def preferredChildLeaf (children : List Payload) : Option PreferredLeaf :=
  let h := (children.find? fun q => q.mimeType = "text/html").bind Payload.bodyData
  if truthyOpt h then some (.html (h.getD ""))
  else
    let t := (children.find? fun q => q.mimeType = "text/plain").bind Payload.bodyData
    if truthyOpt t then some (.plain (t.getD "")) else none

mutual

/-- Body resolution as the specification words it (steps 1-4 of §4.4). -/
def bodyResolutionClaim (dec : String → String) (p : Payload) : String :=
  if rootBodyTruthy p then
    decodeBase64Url dec ((p.bodyData).getD "")
  else
    match h : p.parts with
    | none => ""
    | some children =>
      match preferredChildLeaf children with
      | some (.html d) => decodeBase64Url dec d
      | some (.plain d) => wrapPlainText (decodeBase64Url dec d)
      | none => bodyResolutionClaimLoop dec children
termination_by sizeOf p
decreasing_by
  exact Payload.sizeOf_parts_lt p children h

/-- Step 3 of the spec algorithm: recurse into the children in order and
return the first non-empty resolved body. -/
def bodyResolutionClaimLoop (dec : String → String) : List Payload → String
  | [] => ""
  | q :: rest =>
    let r := bodyResolutionClaim dec q
    if r = "" then bodyResolutionClaimLoop dec rest else r
termination_by l => sizeOf l
decreasing_by
  all_goals simp
  omega

end

theorem getEmailBodyLoop_congr (dec : String → String) (l : List Payload)
    (ih : ∀ q ∈ l, getEmailBody dec q = bodyResolutionClaim dec q) :
    getEmailBodyLoop dec l = bodyResolutionClaimLoop dec l := by
  induction l with
  | nil => rw [getEmailBodyLoop, bodyResolutionClaimLoop]
  | cons q rest ihr =>
    rw [getEmailBodyLoop, bodyResolutionClaimLoop]
    rw [ih q (List.mem_cons_self q rest)]
    by_cases hq : bodyResolutionClaim dec q = ""
    · simp only [hq, ite_true, ne_eq, not_true_eq_false, ite_false]
      exact ihr fun x hx => ih x (List.mem_cons_of_mem q hx)
    · simp only [hq, ite_false, ne_eq, not_false_eq_true, ite_true]

theorem getEmailBody_eq_claim_aux (dec : String → String) (p : Payload) :
    getEmailBody dec p = bodyResolutionClaim dec p := by
  rw [getEmailBody, bodyResolutionClaim]
  by_cases hr : rootBodyTruthy p = true
  · simp only [hr, ite_true]
  · simp only [hr, ite_false]
    cases hp : p.parts with
    | none => rfl
    | some children =>
      simp only [preferredChildLeaf]
      by_cases hh :
          truthyOpt ((children.find? fun q => q.mimeType = "text/html").bind
            Payload.bodyData) = true
      · simp only [hh, ite_true]
      · simp only [hh, ite_false, Bool.false_eq_true]
        by_cases ht :
            truthyOpt ((children.find? fun q => q.mimeType = "text/plain").bind
              Payload.bodyData) = true
        · simp only [ht, ite_true]
        · simp only [ht, ite_false, Bool.false_eq_true]
          exact getEmailBodyLoop_congr dec children fun q hq =>
            getEmailBody_eq_claim_aux dec q
termination_by sizeOf p
decreasing_by
  exact lt_trans (List.sizeOf_lt_sizeOf_of_mem hq)
    (Payload.sizeOf_parts_lt p children hp)

/-- C3: for every raw message payload, body resolution follows the
depth-first algorithm of the spec: a non-empty root body is base64url
decoded and returned; otherwise a direct `text/html` child is preferred;
otherwise a `text/plain` child is HTML-escaped and wrapped in the
fixed-width container; otherwise the children are recursed into in order
and the first non-empty resolved body wins; and if nothing resolves the
body is the empty string, not an error. -/
theorem c3_body_resolution_follows_spec (dec : String → String) (p : Payload) :
    getEmailBody dec p = bodyResolutionClaim dec p :=
  getEmailBody_eq_claim_aux dec p

/-! ## Attachment materializer (`processEmail`)

Per attachment part the source fetches the bytes
(`gmail.users.messages.attachments.get`), decodes them and writes them to
`public/attachments/<userId>/<messageId>/<filename>`.  The side effects
are modelled by an oracle `AttOutcome` per part index. -/

/-- Outcome of the side effects for one attachment part: the Gmail fetch
either throws, or returns a response whose `data.data` field is
`dataB64`; when the fetch returned usable data, `fsErr` says whether the
local mkdir/write step threw. -/
inductive AttOutcome where
  | fetchErr
  | fetched (dataB64 : Option String) (fsErr : Bool)
  deriving Repr, DecidableEq

/-- The `EmailAttachment` entries produced by `processEmail`
(`attachmentId` is declared in the source interface but never written). -/
structure EmailAttachment where
  filename : String
  mimeType : String
  size : Nat
  url : Option String
  deriving Repr, DecidableEq

/-- The `ProcessedEmail` record returned by `processEmail`.  The source's
`from` field is called `fromName` here (`from` is reserved in Lean, and `to` is called `toAddr`);
`isInvoice`/`invoiceConfidence` stay absent (`none`) until the
verification step merges them. -/
structure ProcessedEmail where
  id : String
  threadId : String
  subject : String
  fromName : String
  fromEmail : String
  toAddr : String
  date : String
  snippet : String
  body : String
  isRead : Bool
  hasAttachments : Bool
  attachments : List EmailAttachment
  labels : List String
  isInvoice : Option Bool
  invoiceConfidence : Option ℚ
  deriving Repr, DecidableEq

/-- The raw Gmail message object (`format: 'full'`). -/
structure RawMessage where
  id : String
  threadId : String
  snippet : String
  labelIds : Option (List String)
  payload : Payload

/-- `part.filename && part.body?.attachmentId`: the condition for a part
to be treated as an attachment. -/
def isAttachmentPart (p : Payload) : Bool :=
  p.filename ≠ "" && truthyOpt (p.body.bind (·.attachmentId))

/-- `part.body.size || 0`. -/
def attachmentSize (p : Payload) : Nat :=
  match p.body with
  | some b => b.size
  | none => 0

/-- The public URL computed for a saved attachment;
`enc` is `encodeURIComponent`. -/
def publicAttachmentUrl (enc : String → String)
    (userId msgId filename : String) : String :=
  "/attachments/" ++ userId ++ "/" ++ msgId ++ "/" ++ enc filename

/-- The entry pushed in the catch branch: metadata without a URL. -/
def failedAttachment (p : Payload) : EmailAttachment :=
  { filename := p.filename, mimeType := p.mimeType,
    size := attachmentSize p, url := none }

/-- The entry pushed after a successful save: metadata plus the local
public URL. -/
def savedAttachment (enc : String → String) (userId msgId : String)
    (p : Payload) : EmailAttachment :=
  { filename := p.filename, mimeType := p.mimeType,
    size := attachmentSize p,
    url := some (publicAttachmentUrl enc userId msgId p.filename) }

/-- Entries contributed by a single part of the loop in `processEmail`:
non-attachment parts contribute nothing; a thrown fetch or a thrown
decode/mkdir/write contributes the URL-less entry; a fetch whose response
carries no data contributes nothing; a successful save contributes the
entry with the URL. -/
def partAttachmentEntries (enc : String → String) (userId msgId : String)
    (p : Payload) (o : AttOutcome) : List EmailAttachment :=
  if isAttachmentPart p then
    match o with
    | .fetchErr => [failedAttachment p]
    | .fetched d fsErr =>
      if truthyOpt d then
        if fsErr then [failedAttachment p]
        else [savedAttachment enc userId msgId p]
      else []
  else []

/-- The attachment loop of `processEmail` over `payload.parts || []`,
with the side-effect oracle indexed by part position. -/
def processParts (enc : String → String) (userId msgId : String)
    (eff : Nat → AttOutcome) (parts : List Payload) : List EmailAttachment :=
  parts.enum.flatMap fun ip => partAttachmentEntries enc userId msgId ip.2 (eff ip.1)

/-- `processEmail` from the source: header extraction, attachment
materialization and body resolution for one raw message. -/
def processEmail (enc dec : String → String)
    (splitAddr : String → Option (String × String)) (userId : String)
    (msg : RawMessage) (eff : Nat → AttOutcome) : ProcessedEmail :=
  let payload := msg.payload
  let headers := payload.headers
  let nameEmail := parseEmailAddress splitAddr (getHeader headers "From")
  let attachments := processParts enc userId msg.id eff (payload.parts.getD [])
  { id := msg.id
    threadId := msg.threadId
    subject := getHeader headers "Subject"
    fromName := nameEmail.1
    fromEmail := nameEmail.2
    toAddr := getHeader headers "To"
    date := getHeader headers "Date"
    snippet := msg.snippet
    body := getEmailBody dec payload
    isRead := !((msg.labelIds.getD []).contains "UNREAD")
    hasAttachments := decide (0 < attachments.length)
    attachments := attachments
    labels := msg.labelIds.getD []
    isInvoice := none
    invoiceConfidence := none }

/-- The per-attachment failure modes the claim speaks about: the byte
fetch throws, or the fetch succeeded with data and the
decode/directory-creation/write step throws. -/
def attachmentThrew : AttOutcome → Bool
  | .fetchErr => true
  | .fetched d fsErr => truthyOpt d && fsErr

/-- C1: if the side effects for an attachment part (one carrying a
filename and an attachment id) throw, the part still appears in the
processed message's attachment list with its filename and size taken from
the API metadata and no url; and every other part's contribution to the
attachment list is preserved, so one bad attachment never drops the
message's remaining attachments (and `processEmail` is total, so the
message and the batch survive). -/
theorem c1_attachment_failure_isolated (enc dec : String → String)
    (splitAddr : String → Option (String × String)) (userId : String)
    (msg : RawMessage) (eff : Nat → AttOutcome) (i : Nat) (p : Payload)
    (hp : (msg.payload.parts.getD [])[i]? = some p)
    (hname : p.filename ≠ "")
    (haid : truthyOpt (p.body.bind (·.attachmentId)) = true)
    (hthrew : attachmentThrew (eff i) = true) :
    failedAttachment p ∈ (processEmail enc dec splitAddr userId msg eff).attachments
    ∧ (processEmail enc dec splitAddr userId msg eff).hasAttachments = true
    ∧ ∀ j q, (msg.payload.parts.getD [])[j]? = some q →
        partAttachmentEntries enc userId msg.id q (eff j) ⊆
          (processEmail enc dec splitAddr userId msg eff).attachments := by
  have hmem : ∀ j q, (msg.payload.parts.getD [])[j]? = some q →
      partAttachmentEntries enc userId msg.id q (eff j) ⊆
        (processEmail enc dec splitAddr userId msg eff).attachments := by
    intro j q hq x hx
    show x ∈ processParts enc userId msg.id eff (msg.payload.parts.getD [])
    unfold processParts
    refine List.mem_flatMap.mpr ⟨(j, q), ?_, hx⟩
    exact List.mk_mem_enum_iff_getElem?.mpr hq
  have hfail : failedAttachment p ∈
      (processEmail enc dec splitAddr userId msg eff).attachments := by
    refine hmem i p hp ?_
    unfold partAttachmentEntries
    have hatt : isAttachmentPart p = true := by
      unfold isAttachmentPart
      rw [haid]
      simp [hname]
    rw [hatt]
    cases heff : eff i with
    | fetchErr => simp
    | fetched d fsErr =>
      rw [heff] at hthrew
      unfold attachmentThrew at hthrew
      simp only [Bool.and_eq_true] at hthrew
      simp [hthrew.1, hthrew.2]
  refine ⟨hfail, ?_, hmem⟩
  show decide (0 < (processParts enc userId msg.id eff
    (msg.payload.parts.getD [])).length) = true
  have : (processParts enc userId msg.id eff
      (msg.payload.parts.getD [])).length ≠ 0 := by
    intro hlen
    rw [List.length_eq_zero] at hlen
    exact (List.ne_nil_of_mem hfail) hlen
  simp only [decide_eq_true_eq]
  omega

/-! ## Document store model (MongoDB `profiles` and `mails` collections)

Collections are lists of documents in insertion order.  `findOne` is
`List.find?`, `insertOne` appends, `deleteOne` removes the first match,
`deleteMany` filters, `updateOne` rewrites the first match, and
`updateMany` with `$pull` rewrites every matching document. -/

/-- A document of the `profiles` collection.  Google-auth profiles carry a
`google_id`; a document with no `scanned` array is modelled by `[]`
(Mongo treats the absent array the same way for `$pull`). -/
structure ProfileDoc where
  uuid : String
  google_id : Option String
  email : String
  scanned : List String
  created_at : Nat
  deriving Repr, DecidableEq

/-- A document of the `mails` collection, shaped by `MailSchema`. -/
structure MailDoc where
  uuid : String
  user_uuid : String
  scraped_data : String
  invoice_number : Option String
  vendor_name : Option String
  invoice_date : Option Int
  total_amount : Option Int
  purchase_order : Option String
  due_date : Option Int
  gst_number : Option String
  tax_amount : Option Int
  deriving Repr, DecidableEq

/-- The database: both collections of `invoicesdb`. -/
structure Db where
  profiles : List ProfileDoc
  mails : List MailDoc
  deriving Repr, DecidableEq

/-- Hex-digit test used by the uuid format check. -/
def isHexDigit (c : Char) : Bool :=
  c.isDigit || ('a' ≤ c && c ≤ 'f') || ('A' ≤ c && c ≤ 'F')

/-- `z.string().uuid()`: 8-4-4-4-12 hex groups separated by hyphens, with
the version nibble restricted to 1-5 (zod's uuid regular expression). -/
def isUuidFormat (s : String) : Bool :=
  let cs := s.toList
  (cs.length == 36) &&
    cs.enum.all fun ic =>
      if ic.1 == 8 || ic.1 == 13 || ic.1 == 18 || ic.1 == 23 then ic.2 == '-'
      else if ic.1 == 14 then '1' ≤ ic.2 && ic.2 ≤ '5'
      else isHexDigit ic.2

/-- An optional string field validated by `.min(1)` when present. -/
def optNonempty : Option String → Bool
  | none => true
  | some s => s != ""

/-- An optional string field validated by `.uuid()` when present. -/
def optUuid : Option String → Bool
  | none => true
  | some s => isUuidFormat s

/-- An optional numeric field validated by `.positive()` when present. -/
def optPos : Option Int → Bool
  | none => true
  | some t => decide (0 < t)

/-- An optional numeric field validated by `.nonnegative()` when present. -/
def optNonneg : Option Int → Bool
  | none => true
  | some t => decide (0 ≤ t)

/-- The JSON body of `POST /api/mails` (after zod strips unknown keys);
also the shape of a `PUT` patch, where every field is optional. -/
structure MailPostBody where
  uuid : Option String
  user_uuid : Option String
  scraped_data : Option String
  invoice_number : Option String
  vendor_name : Option String
  invoice_date : Option Int
  total_amount : Option Int
  purchase_order : Option String
  due_date : Option Int
  gst_number : Option String
  tax_amount : Option Int
  deriving Repr, DecidableEq

/-- A body that passed `MailSchema.parse`: `user_uuid` and `scraped_data`
are required, the rest stay optional. -/
structure MailParsed where
  uuid : Option String
  user_uuid : String
  scraped_data : String
  invoice_number : Option String
  vendor_name : Option String
  invoice_date : Option Int
  total_amount : Option Int
  purchase_order : Option String
  due_date : Option Int
  gst_number : Option String
  tax_amount : Option Int
  deriving Repr, DecidableEq

/-- `MailSchema.parse`: `none` is a thrown `ZodError`. -/
def mailSchemaParse (b : MailPostBody) : Option MailParsed :=
  match b.user_uuid, b.scraped_data with
  | some uu, some sd =>
    if isUuidFormat uu && (sd != "") && optUuid b.uuid
        && optNonempty b.invoice_number && optNonempty b.vendor_name
        && optPos b.total_amount && optNonneg b.tax_amount then
      some { uuid := b.uuid, user_uuid := uu, scraped_data := sd
             invoice_number := b.invoice_number, vendor_name := b.vendor_name
             invoice_date := b.invoice_date, total_amount := b.total_amount
             purchase_order := b.purchase_order, due_date := b.due_date
             gst_number := b.gst_number, tax_amount := b.tax_amount }
    else none
  | _, _ => none

/-- `MailSchema.partial().parse`: every present field is validated. -/
def mailSchemaPartialParse (b : MailPostBody) : Option MailPostBody :=
  if optUuid b.uuid && optUuid b.user_uuid && optNonempty b.scraped_data
      && optNonempty b.invoice_number && optNonempty b.vendor_name
      && optPos b.total_amount && optNonneg b.tax_amount then
    some b
  else none

/-- `updateOne`: rewrite the first matching element, `none` when
`matchedCount` is `0`. -/
def updateFirst (pred : α → Bool) (f : α → α) : List α → Option (List α)
  | [] => none
  | x :: rest =>
    if pred x then some (f x :: rest)
    else (updateFirst pred f rest).map (x :: ·)

/-- `deleteOne`: remove the first matching element. -/
def eraseFirstBy (pred : α → Bool) : List α → List α
  | [] => []
  | x :: rest => if pred x then rest else x :: eraseFirstBy pred rest

/-- `$set` of a validated partial mail patch onto a stored document. -/
def applyMailPatch (patch : MailPostBody) (d : MailDoc) : MailDoc :=
  { uuid := patch.uuid.getD d.uuid
    user_uuid := patch.user_uuid.getD d.user_uuid
    scraped_data := patch.scraped_data.getD d.scraped_data
    invoice_number := patch.invoice_number.or d.invoice_number
    vendor_name := patch.vendor_name.or d.vendor_name
    invoice_date := patch.invoice_date.or d.invoice_date
    total_amount := patch.total_amount.or d.total_amount
    purchase_order := patch.purchase_order.or d.purchase_order
    due_date := patch.due_date.or d.due_date
    gst_number := patch.gst_number.or d.gst_number
    tax_amount := patch.tax_amount.or d.tax_amount }

/-- `POST /api/mails`: parse, 404 unless the owner profile exists, then
insert.  Returns `(status, createdDoc)` and the new database;
`fresh` models `generateUUID()`. -/
def mailsPOST (fresh : String) (b : MailPostBody) (db : Db) :
    (Nat × Option MailDoc) × Db :=
  match mailSchemaParse b with
  | none => ((400, none), db)
  | some m =>
    let docUuid := (orTruthy m.uuid (some fresh)).getD fresh
    let doc : MailDoc :=
      { uuid := docUuid, user_uuid := m.user_uuid
        scraped_data := m.scraped_data
        invoice_number := m.invoice_number, vendor_name := m.vendor_name
        invoice_date := m.invoice_date, total_amount := m.total_amount
        purchase_order := m.purchase_order, due_date := m.due_date
        gst_number := m.gst_number, tax_amount := m.tax_amount }
    if db.profiles.any fun p => p.uuid == m.user_uuid then
      ((201, some doc), { db with mails := db.mails ++ [doc] })
    else ((404, none), db)

/-- `PUT /api/mails/[id]`: validate the patch, `$set` it on the first
document with that uuid, 404 when there is none. -/
def mailsIdPUT (id : String) (b : MailPostBody) (db : Db) : Nat × Db :=
  match mailSchemaPartialParse b with
  | none => (400, db)
  | some patch =>
    match updateFirst (fun m => m.uuid == id) (applyMailPatch patch) db.mails with
    | none => (404, db)
    | some mails2 => (200, { db with mails := mails2 })

/-- `DELETE /api/mails/[id]`: 404 when the mail does not exist; otherwise
`$pull` the uuid from every profile's `scanned` array, then delete the
mail.  (`updateMany {scanned: id}, {$pull …}` only touches matching
documents; the pull is a no-op on the others, so it is modelled as a map
over all profiles.) -/
def mailsIdDELETE (id : String) (db : Db) : Nat × Db :=
  match db.mails.find? fun m => m.uuid == id with
  | none => (404, db)
  | some _ =>
    let profiles2 := db.profiles.map fun p =>
      { p with scanned := p.scanned.filter fun s => !(s == id) }
    let mails2 := eraseFirstBy (fun m => m.uuid == id) db.mails
    (200, { profiles := profiles2, mails := mails2 })

/-- `DELETE /api/profiles/[id]`: `deleteMany` of the owned mails runs
first, then `deleteOne` of the profile; `deletedCount == 0` yields a 404
(with the cascade already performed). -/
def profilesIdDELETE (id : String) (db : Db) : Nat × Db :=
  let mails2 := db.mails.filter fun m => !(m.user_uuid == id)
  let found := db.profiles.any fun p => p.uuid == id
  let profiles2 := eraseFirstBy (fun p => p.uuid == id) db.profiles
  ((if found then 200 else 404), { profiles := profiles2, mails := mails2 })

/-- The §3 invariant: every mail's `user_uuid` points at an existing
profile. -/
def refIntegrity (db : Db) : Bool :=
  db.mails.all fun m => db.profiles.any fun p => p.uuid == m.user_uuid

theorem mem_eraseFirstBy_of_not_pred {pred : α → Bool} {x : α} {l : List α}
    (hx : x ∈ l) (hpx : pred x = false) : x ∈ eraseFirstBy pred l := by
  induction l with
  | nil => cases hx
  | cons y rest ih =>
    unfold eraseFirstBy
    by_cases hy : pred y = true
    · simp only [hy, ite_true]
      cases List.mem_cons.mp hx with
      | inl he => rw [he] at hpx; rw [hpx] at hy; cases hy
      | inr hm => exact hm
    · simp only [Bool.not_eq_true] at hy
      simp only [hy, Bool.false_eq_true, ite_false]
      cases List.mem_cons.mp hx with
      | inl he => exact he ▸ List.mem_cons_self x _
      | inr hm => exact List.mem_cons_of_mem y (ih hm)

theorem mem_of_mem_eraseFirstBy {pred : α → Bool} {x : α} {l : List α}
    (hx : x ∈ eraseFirstBy pred l) : x ∈ l := by
  induction l with
  | nil => cases hx
  | cons y rest ih =>
    unfold eraseFirstBy at hx
    by_cases hy : pred y = true
    · simp only [hy, ite_true] at hx
      exact List.mem_cons_of_mem y hx
    · simp only [Bool.not_eq_true] at hy
      simp only [hy, Bool.false_eq_true, ite_false] at hx
      cases List.mem_cons.mp hx with
      | inl he => exact he ▸ List.mem_cons_self x _
      | inr hm => exact List.mem_cons_of_mem y (ih hm)

theorem countP_eraseFirstBy {pred : α → Bool} {l : List α} {a : α}
    (h : l.find? pred = some a) :
    (eraseFirstBy pred l).countP pred = l.countP pred - 1 := by
  induction l with
  | nil => cases h
  | cons y rest ih =>
    unfold eraseFirstBy
    by_cases hy : pred y = true
    · simp only [hy, ite_true]
      rw [List.countP_cons_of_pos pred rest hy]
      omega
    · simp only [Bool.not_eq_true] at hy
      simp only [hy, Bool.false_eq_true, ite_false]
      rw [List.find?_cons_of_neg rest (by simp [hy])] at h
      rw [List.countP_cons_of_neg pred (eraseFirstBy pred rest) (by simp [hy]),
        List.countP_cons_of_neg pred rest (by simp [hy])]
      exact ih h

/-- C10: `DELETE /api/mails/[id]` with an existing mail removes the uuid
from every profile's scanned array and deletes one matching mail, leaving
no dangling scanned reference; with no matching mail it returns 404 and
modifies neither collection. -/
theorem c10_mail_delete_purges_scanned (id : String) (db : Db) :
    ((db.mails.find? fun m => m.uuid == id) = none →
      mailsIdDELETE id db = (404, db))
    ∧ ∀ m0, (db.mails.find? fun m => m.uuid == id) = some m0 →
        (mailsIdDELETE id db).1 = 200
        ∧ (∀ p ∈ (mailsIdDELETE id db).2.profiles, ¬ id ∈ p.scanned)
        ∧ ((mailsIdDELETE id db).2.mails.countP fun m => m.uuid == id)
            = (db.mails.countP fun m => m.uuid == id) - 1
        ∧ ∀ m ∈ (mailsIdDELETE id db).2.mails, m ∈ db.mails := by
  constructor
  · intro hnone
    unfold mailsIdDELETE
    rw [hnone]
  · intro m0 hsome
    have heq : mailsIdDELETE id db =
        (200, { profiles := db.profiles.map fun p =>
                  { p with scanned := p.scanned.filter fun s => !(s == id) },
                mails := eraseFirstBy (fun m => m.uuid == id) db.mails }) := by
      unfold mailsIdDELETE
      rw [hsome]
    refine ⟨by rw [heq], ?_, ?_, ?_⟩
    · intro p hp
      rw [heq] at hp
      simp only [List.mem_map] at hp
      obtain ⟨q, _, hq⟩ := hp
      subst hq
      simp only [List.mem_filter]
      intro hmem
      have := hmem.2
      simp at this
    · rw [heq]
      exact countP_eraseFirstBy hsome
    · intro m hm
      rw [heq] at hm
      exact mem_of_mem_eraseFirstBy hm

/-- Concrete state for the C10 witness: one profile has scanned the one
mail on record. -/
def c10profile : ProfileDoc :=
  { uuid := "11111111-1111-4111-8111-111111111111"
    google_id := none, email := "a@example.com"
    scanned := ["33333333-3333-4333-8333-333333333333"], created_at := 0 }

def c10mail : MailDoc :=
  { uuid := "33333333-3333-4333-8333-333333333333"
    user_uuid := "11111111-1111-4111-8111-111111111111"
    scraped_data := "invoice text", invoice_number := none, vendor_name := none
    invoice_date := none, total_amount := none, purchase_order := none
    due_date := none, gst_number := none, tax_amount := none }

def c10db : Db := { profiles := [c10profile], mails := [c10mail] }

theorem c10_mail_delete_purges_scanned_witness :
    (mailsIdDELETE "33333333-3333-4333-8333-333333333333" c10db).1 = 200
    ∧ ((mailsIdDELETE "33333333-3333-4333-8333-333333333333" c10db).2.mails.countP
        fun m => m.uuid == "33333333-3333-4333-8333-333333333333") = 0 := by
  have h := (c10_mail_delete_purges_scanned
    "33333333-3333-4333-8333-333333333333" c10db).2 c10mail (by decide)
  exact ⟨h.1, by rw [h.2.2.1]; decide⟩

/-! ### Claim C4: referential integrity across mail operations

`POST /api/mails` and the profile cascade-delete do preserve the
invariant, but `PUT /api/mails/[id]` accepts a partial body whose
`user_uuid` is any well-formed uuid and `$set`s it with no existence
check, so not every operation on mail records preserves the invariant. -/

def c4profile : ProfileDoc :=
  { uuid := "11111111-1111-4111-8111-111111111111"
    google_id := none, email := "a@example.com", scanned := [], created_at := 0 }

def c4mail : MailDoc :=
  { uuid := "33333333-3333-4333-8333-333333333333"
    user_uuid := "11111111-1111-4111-8111-111111111111"
    scraped_data := "invoice text", invoice_number := none, vendor_name := none
    invoice_date := none, total_amount := none, purchase_order := none
    due_date := none, gst_number := none, tax_amount := none }

def c4db : Db := { profiles := [c4profile], mails := [c4mail] }

/-- A PUT body reassigning the mail to a uuid that belongs to no profile. -/
def c4patch : MailPostBody :=
  { uuid := none, user_uuid := some "22222222-2222-4222-8222-222222222222"
    scraped_data := none, invoice_number := none, vendor_name := none
    invoice_date := none, total_amount := none, purchase_order := none
    due_date := none, gst_number := none, tax_amount := none }

/-- C4 counterexample: from a state satisfying the invariant,
`PUT /api/mails/[id]` with a fresh `user_uuid` succeeds (200) and leaves a
mail record whose `user_uuid` matches no profile — so it is not true that
every operation on mail records preserves the invariant. -/
theorem c4_counterexample_put_breaks_integrity :
    refIntegrity c4db = true
    ∧ (mailsIdPUT "33333333-3333-4333-8333-333333333333" c4patch c4db).1 = 200
    ∧ refIntegrity
        (mailsIdPUT "33333333-3333-4333-8333-333333333333" c4patch c4db).2
        = false := by
  decide

/-- C4 as amended: `POST /api/mails` preserves the invariant and answers
404 without inserting when the owner profile is missing, and deleting a
profile cascade-deletes every mail it owns while preserving the
invariant; `PUT /api/mails/[id]` is excluded since it can rewrite
`user_uuid` unchecked. -/
theorem c4_amended_post_and_cascade_preserve_integrity
    (db : Db) (b : MailPostBody) (fresh pid : String)
    (hint : refIntegrity db = true) :
    refIntegrity (mailsPOST fresh b db).2 = true
    ∧ (∀ m, mailSchemaParse b = some m →
        (db.profiles.any fun p => p.uuid == m.user_uuid) = false →
        mailsPOST fresh b db = ((404, none), db))
    ∧ refIntegrity (profilesIdDELETE pid db).2 = true
    ∧ ∀ mm ∈ (profilesIdDELETE pid db).2.mails, mm.user_uuid ≠ pid := by
  refine ⟨?_, ?_, ?_, ?_⟩
  · unfold mailsPOST
    cases hparse : mailSchemaParse b with
    | none => exact hint
    | some m =>
      by_cases hany : (db.profiles.any fun p => p.uuid == m.user_uuid) = true
      · simp only [hany, ite_true]
        simp only [refIntegrity, List.all_append, Bool.and_eq_true] at hint ⊢
        exact ⟨hint, by simpa using hany⟩
      · simp only [Bool.not_eq_true] at hany
        simp only [hany, Bool.false_eq_true, ite_false]
        exact hint
  · intro m hparse hany
    unfold mailsPOST
    rw [hparse]
    simp only [hany, Bool.false_eq_true, ite_false]
  · simp only [refIntegrity, profilesIdDELETE, List.all_eq_true]
    intro m hm
    simp only [List.mem_filter, Bool.not_eq_true'] at hm
    have hm2 := List.all_eq_true.mp (by simpa only [refIntegrity] using hint)
      m hm.1
    simp only [List.any_eq_true] at hm2 ⊢
    obtain ⟨p0, hp0, hp0eq⟩ := hm2
    refine ⟨p0, ?_, hp0eq⟩
    refine mem_eraseFirstBy_of_not_pred hp0 ?_
    have hmu : m.user_uuid ≠ pid := by
      intro h
      rw [h] at hm
      simp at hm
    simp only [beq_eq_false_iff_ne, ne_eq]
    intro h
    rw [beq_iff_eq] at hp0eq
    exact hmu (by rw [← hp0eq, h])
  · intro mm hmm
    simp only [profilesIdDELETE, List.mem_filter, Bool.not_eq_true'] at hmm
    simpa using hmm.2

theorem c4_amended_witness :
    refIntegrity c4db = true
    ∧ refIntegrity (profilesIdDELETE "11111111-1111-4111-8111-111111111111"
        c4db).2 = true :=
  ⟨by decide,
    (c4_amended_post_and_cascade_preserve_integrity c4db c4patch
      "44444444-4444-4444-8444-444444444444"
      "11111111-1111-4111-8111-111111111111" (by decide)).2.2.1⟩

/-! ### Claim C8: what the profile cascade-delete does to `scanned`

`DELETE /api/profiles/[id]` runs `deleteMany` on the owned mails and
`deleteOne` on the profile — and nothing else.  The purge of the deleted
mails' uuids from other profiles' `scanned` arrays that the claim
describes does not happen (only the direct mail deletion route purges). -/

/-- The profile about to be deleted. -/
def c8owner : ProfileDoc :=
  { uuid := "11111111-1111-4111-8111-111111111111"
    google_id := none, email := "owner@example.com"
    scanned := [], created_at := 0 }

/-- A second profile that has scanned the owner's mail. -/
def c8other : ProfileDoc :=
  { uuid := "22222222-2222-4222-8222-222222222222"
    google_id := none, email := "other@example.com"
    scanned := ["33333333-3333-4333-8333-333333333333"], created_at := 0 }

def c8mail : MailDoc :=
  { uuid := "33333333-3333-4333-8333-333333333333"
    user_uuid := "11111111-1111-4111-8111-111111111111"
    scraped_data := "invoice text", invoice_number := none, vendor_name := none
    invoice_date := none, total_amount := none, purchase_order := none
    due_date := none, gst_number := none, tax_amount := none }

def c8db : Db := { profiles := [c8owner, c8other], mails := [c8mail] }

/-- C8 counterexample: deleting the owner profile cascade-deletes its
mail, yet the other profile still lists the deleted mail's uuid in its
`scanned` array — the purge the claim describes does not occur. -/
theorem c8_counterexample_scanned_not_purged :
    (profilesIdDELETE "11111111-1111-4111-8111-111111111111" c8db).1 = 200
    ∧ ((profilesIdDELETE "11111111-1111-4111-8111-111111111111" c8db).2.mails.countP
        fun m => m.uuid == "33333333-3333-4333-8333-333333333333") = 0
    ∧ ((profilesIdDELETE "11111111-1111-4111-8111-111111111111" c8db).2.profiles.countP
        fun p => p.scanned.contains "33333333-3333-4333-8333-333333333333") = 1 := by
  decide

/-- C8 as amended: deleting a profile cascade-deletes every mail it owns
and removes the profile, but leaves every other profile — its `scanned`
back-references included — exactly as it was; no purge of the deleted
mails' uuids from `scanned` arrays takes place. -/
theorem c8_amended_cascade_leaves_scanned_untouched (db : Db) (aid : String) :
    (∀ m ∈ (profilesIdDELETE aid db).2.mails, m.user_uuid ≠ aid)
    ∧ (∀ m ∈ db.mails, m.user_uuid ≠ aid →
        m ∈ (profilesIdDELETE aid db).2.mails)
    ∧ ∀ p ∈ db.profiles, p.uuid ≠ aid →
        p ∈ (profilesIdDELETE aid db).2.profiles := by
  refine ⟨?_, ?_, ?_⟩
  · intro m hm
    simp only [profilesIdDELETE, List.mem_filter, Bool.not_eq_true'] at hm
    simpa using hm.2
  · intro m hm hne
    simp only [profilesIdDELETE, List.mem_filter, Bool.not_eq_true']
    exact ⟨hm, by simpa using hne⟩
  · intro p hp hne
    show p ∈ eraseFirstBy (fun q => q.uuid == aid) db.profiles
    exact mem_eraseFirstBy_of_not_pred hp (by simpa using hne)

theorem c8_amended_witness :
    c8other ∈ (profilesIdDELETE "11111111-1111-4111-8111-111111111111"
      c8db).2.profiles :=
  (c8_amended_cascade_leaves_scanned_untouched c8db
    "11111111-1111-4111-8111-111111111111").2.2 c8other (by decide) (by decide)

/-- A PDF attachment part for the C1 witness. -/
def c1part : Payload :=
  .mk "application/pdf" "invoice.pdf" [] (some ⟨1234, none, some "att-1"⟩) none

/-- A raw message holding `c1part` for the C1 witness. -/
def c1msg : RawMessage :=
  { id := "m1", threadId := "t1", snippet := "sn"
    labelIds := some ["INBOX", "UNREAD"]
    payload := .mk "multipart/mixed" ""
      [("From", "Vendor <v@example.com>")] (some ⟨0, none, none⟩)
      (some [c1part]) }

theorem c1_attachment_failure_isolated_witness :
    failedAttachment c1part ∈
      (processEmail (fun s => s) (fun s => s) (fun _ => none) "u1" c1msg
        (fun _ => .fetchErr)).attachments :=
  (c1_attachment_failure_isolated (fun s => s) (fun s => s) (fun _ => none)
    "u1" c1msg (fun _ => .fetchErr) 0 c1part rfl (by decide) (by decide)
    (by decide)).1

/-! ## Dev-mode session/token store and the OAuth handlers

`.dev_storage.json` is modelled as association lists keyed by session id
and by userId; JS object indexing/assignment/deletion become `lookupA`,
`setA` and `deleteA`. -/

/-- One entry of `storage.sessions`. -/
structure SessionRec where
  userId : String
  email : String
  profile_uuid : Option String
  deriving Repr, DecidableEq

/-- One entry of `storage.tokens` (the remaining Google token fields do
not influence any handler and are elided). -/
structure TokenRec where
  access_token : Option String
  refresh_token : Option String
  deriving Repr, DecidableEq

/-- The dev-mode persistence blob. -/
structure DevStorage where
  sessions : List (String × SessionRec)
  tokens : List (String × TokenRec)
  deriving Repr, DecidableEq

/-- `obj[k]` on a JS object. -/
def lookupA (k : String) (l : List (String × α)) : Option α :=
  (l.find? fun e => e.1 == k).map (·.2)

/-- `obj[k] = v` on a JS object. -/
def setA (k : String) (v : α) : List (String × α) → List (String × α)
  | [] => [(k, v)]
  | e :: rest => if e.1 == k then (k, v) :: rest else e :: setA k v rest

/-- `delete obj[k]` on a JS object. -/
def deleteA (k : String) (l : List (String × α)) : List (String × α) :=
  l.filter fun e => !(e.1 == k)

/-- `getSession`: read the `session_id` cookie and look the session up. -/
def getSession (st : DevStorage) (cookie : Option String) : Option SessionRec :=
  match cookie with
  | none => none
  | some sid => lookupA sid st.sessions

/-- The HTML responses of the OAuth callback (success page or error
page). -/
structure HtmlResp where
  status : Nat
  isErrorPage : Bool
  deriving Repr, DecidableEq

/-- `GET /api/auth/google/callback`: missing `code`/`state`, an unknown
`state`, or a failed code-for-tokens exchange all throw into the catch
that renders the error page; on success the tokens are stored under the
session's userId.  `exchange` is the `oauth2Client.getToken` oracle. -/
def authGoogleCallback (st : DevStorage) (code state : Option String)
    (exchange : Except Unit TokenRec) : HtmlResp × DevStorage :=
  if !truthyOpt code || !truthyOpt state then
    ({ status := 500, isErrorPage := true }, st)
  else
    match lookupA (state.getD "") st.sessions with
    | none => ({ status := 500, isErrorPage := true }, st)
    | some sess =>
      match exchange with
      | .error _ => ({ status := 500, isErrorPage := true }, st)
      | .ok toks =>
        ({ status := 200, isErrorPage := false },
         { st with tokens := setA sess.userId toks st.tokens })

/-- C7: when the callback's `state` does not resolve to a session in the
store, the flow ends in an error page and the storage — its token map
included — is left unchanged. -/
theorem c7_unknown_state_stores_nothing (st : DevStorage)
    (code : Option String) (s : String) (exchange : Except Unit TokenRec)
    (hcode : truthyOpt code = true) (hs : s ≠ "")
    (hmiss : lookupA s st.sessions = none) :
    authGoogleCallback st code (some s) exchange
      = ({ status := 500, isErrorPage := true }, st) := by
  unfold authGoogleCallback
  have hts : truthyOpt (some s) = true := by simpa [truthyOpt] using hs
  rw [hcode, hts]
  simp only [Bool.not_true, Bool.or_self, Bool.false_eq_true, ite_false,
    Option.getD_some]
  rw [hmiss]

def c7storage : DevStorage :=
  { sessions := [("sess_known", ⟨"user-1", "u@example.com", none⟩)]
    tokens := [] }

theorem c7_unknown_state_stores_nothing_witness :
    authGoogleCallback c7storage (some "authcode") (some "sess_unknown")
        (.ok ⟨some "at", some "rt"⟩)
      = ({ status := 500, isErrorPage := true }, c7storage) :=
  c7_unknown_state_stores_nothing c7storage (some "authcode") "sess_unknown"
    (.ok ⟨some "at", some "rt"⟩) (by decide) (by decide) (by decide)

/-- The JSON response of `POST /api/auth/disconnect` (it always reports
success and deletes the cookie). -/
structure DisconnectResp where
  success : Bool
  cookieCleared : Bool
  deriving Repr, DecidableEq

/-- `POST /api/auth/disconnect`: when a session exists and its token set
has a truthy `access_token`, the provider revocation runs first; if it
throws (`revokeThrows`), the catch is entered before the local
`delete storage.tokens[...]` / `delete storage.sessions[...]` lines run,
so the storage is left as it was.  Otherwise both entries are cleared.
Either way the handler answers success and clears the cookie. -/
def authDisconnect (st : DevStorage) (cookie : Option String)
    (revokeThrows : Bool) : DisconnectResp × DevStorage :=
  match getSession st cookie with
  | none => ({ success := true, cookieCleared := true }, st)
  | some sess =>
    let toks := lookupA sess.userId st.tokens
    if truthyOpt (toks.bind (·.access_token)) && revokeThrows then
      ({ success := true, cookieCleared := true }, st)
    else
      ({ success := true, cookieCleared := true },
       { sessions :=
           match cookie with
           | some sid => deleteA sid st.sessions
           | none => st.sessions
         tokens := deleteA sess.userId st.tokens })

def c6session : SessionRec :=
  { userId := "user-1", email := "u@example.com", profile_uuid := none }

def c6tokens : TokenRec :=
  { access_token := some "ya29.access", refresh_token := some "1//refresh" }

def c6storage : DevStorage :=
  { sessions := [("sess_1", c6session)], tokens := [("user-1", c6tokens)] }

/-- C6 is a code bug: with a live session whose token set has an access
token, a throwing provider revocation makes `authDisconnect` return the
success response while leaving both the local token entry and the session
entry in place — the deletes sit after the `await` inside the `try`, so
the claimed unconditional clearing does not happen. -/
theorem c6_code_bug_revoke_throw_keeps_local_state :
    (authDisconnect c6storage (some "sess_1") true).1
        = { success := true, cookieCleared := true }
    ∧ (authDisconnect c6storage (some "sess_1") true).2 = c6storage
    ∧ lookupA "user-1" (authDisconnect c6storage (some "sess_1") true).2.tokens
        = some c6tokens
    ∧ lookupA "sess_1" (authDisconnect c6storage (some "sess_1") true).2.sessions
        = some c6session := by
  decide

/-! ## Find-or-create profile (claim C9)

The same `findOne({google_id}) / insertOne / findOne({uuid})` block
appears in `authGoogle`, `authStatus` and `getEmails`; `fresh` models
`randomUUID()` and `now` models `new Date()`. -/

/-- The find-or-create-profile step on the `profiles` collection. -/
def findOrCreateProfile (gid email fresh : String) (now : Nat)
    (profiles : List ProfileDoc) : Option ProfileDoc × List ProfileDoc :=
  match profiles.find? fun p => p.google_id == some gid with
  | some p => (some p, profiles)
  | none =>
    let newP : ProfileDoc :=
      { uuid := fresh, google_id := some gid, email := email
        scanned := [], created_at := now }
    let profiles2 := profiles ++ [newP]
    (profiles2.find? fun p => p.uuid == fresh, profiles2)

/-- How many profiles carry a given `google_id`. -/
def countGoogleId (gid : String) (profiles : List ProfileDoc) : Nat :=
  profiles.countP fun p => p.google_id == some gid

/-- C9: two sequential find-or-create calls for the same google identity
return the same profile document (hence the same profileId), the second
call inserts nothing, and a call creates a profile only when none with
that `google_id` existed — so at most one profile is ever created per
external identity.  (`randomUUID` freshness is the hypothesis on `f1`.) -/
theorem c9_find_or_create_idempotent (gid email f1 f2 : String)
    (n1 n2 : Nat) (ps : List ProfileDoc)
    (hfresh : ∀ q ∈ ps, q.uuid ≠ f1) :
    (∃ p, (findOrCreateProfile gid email f1 n1 ps).1 = some p
      ∧ (findOrCreateProfile gid email f2 n2
          (findOrCreateProfile gid email f1 n1 ps).2).1 = some p)
    ∧ (findOrCreateProfile gid email f2 n2
        (findOrCreateProfile gid email f1 n1 ps).2).2
        = (findOrCreateProfile gid email f1 n1 ps).2
    ∧ countGoogleId gid (findOrCreateProfile gid email f1 n1 ps).2
        = (if countGoogleId gid ps = 0 then 1 else countGoogleId gid ps) := by
  cases hg : ps.find? fun p => p.google_id == some gid with
  | some p =>
    have h1 : findOrCreateProfile gid email f1 n1 ps = (some p, ps) := by
      unfold findOrCreateProfile
      rw [hg]
    have hpos : 0 < countGoogleId gid ps := by
      rw [countGoogleId, List.countP_pos_iff]
      have hsome := List.find?_some hg
      exact ⟨p, List.mem_of_find?_eq_some hg, hsome⟩
    rw [h1]
    refine ⟨⟨p, rfl, ?_⟩, ?_, ?_⟩
    · unfold findOrCreateProfile
      rw [hg]
    · unfold findOrCreateProfile
      rw [hg]
    · rw [if_neg (by omega)]
  | none =>
    have hzero : countGoogleId gid ps = 0 :=
      List.countP_eq_zero.mpr (List.find?_eq_none.mp hg)
    have hps1 : (ps.find? fun q => q.uuid == f1) = none :=
      List.find?_eq_none.mpr fun q hq => by
        simpa using hfresh q hq
    have h1 : findOrCreateProfile gid email f1 n1 ps =
        (some ⟨f1, some gid, email, [], n1⟩,
          ps ++ [⟨f1, some gid, email, [], n1⟩]) := by
      unfold findOrCreateProfile
      rw [hg]
      simp only [List.find?_append, hps1, Option.none_or]
      rw [List.find?_cons_of_pos _ (by simp)]
    have h2 : findOrCreateProfile gid email f2 n2
        (ps ++ [(⟨f1, some gid, email, [], n1⟩ : ProfileDoc)]) =
        (some ⟨f1, some gid, email, [], n1⟩,
          ps ++ [⟨f1, some gid, email, [], n1⟩]) := by
      unfold findOrCreateProfile
      rw [List.find?_append, hg]
      simp only [Option.none_or]
      rw [List.find?_cons_of_pos _ (by simp)]
    rw [h1]
    refine ⟨⟨⟨f1, some gid, email, [], n1⟩, rfl, by rw [h2]⟩, by rw [h2], ?_⟩
    rw [if_pos hzero, countGoogleId, List.countP_append]
    rw [countGoogleId] at hzero
    rw [hzero]
    simp [List.countP_cons]

/-! ## `extractEmailBody` (the body text sent to the classifier)

A second, independent tree walk in the source: raw `Buffer.from(data,
'base64')` decoding (no base64url replacement), `text/plain` children
first, then `text/html` children with the tags stripped
(`.replace(/<[^>]*>/g, ' ').replace(/\s+/g, ' ').trim()`), then
recursion into children that themselves have parts. -/

/-- The character class of the JS `\s` used by the whitespace collapse
(space, tab, newline, carriage return, vertical tab, form feed). -/
def isJsWs (c : Char) : Bool :=
  c == ' ' || c == '\t' || c == '\n' || c == '\r'
    || c == Char.ofNat 11 || c == Char.ofNat 12

/-- `.replace(/<[^>]*>/g, ' ')`: each complete `<...>` group (up to the
first `>`) becomes one space; a `<` with no later `>` is kept. -/
def stripTagsAux : List Char → List Char
  | [] => []
  | c :: rest =>
    if c == '<' && rest.any (· == '>') then
      ' ' :: stripTagsAux ((rest.dropWhile fun d => !(d == '>')).tail)
    else c :: stripTagsAux rest
termination_by l => l.length
decreasing_by
  · have h1 : (rest.dropWhile fun d => !(d == '>')).length ≤ rest.length :=
      (List.dropWhile_suffix fun d => !(d == '>')).length_le
    have h2 := List.length_tail (rest.dropWhile fun d => !(d == '>'))
    simp only [List.length_cons]
    omega
  · simp

/-- `.replace(/\s+/g, ' ')`: collapse every whitespace run to a single
space. -/
def collapseWsAux : List Char → List Char
  | [] => []
  | [c] => if isJsWs c then [' '] else [c]
  | c :: d :: rest =>
    if isJsWs c && isJsWs d then collapseWsAux (d :: rest)
    else (if isJsWs c then ' ' else c) :: collapseWsAux (d :: rest)

/-- `.trim()`. -/
def trimWs (cs : List Char) : List Char :=
  ((cs.dropWhile isJsWs).reverse.dropWhile isJsWs).reverse

/-- The basic HTML cleanup applied to `text/html` bodies before they are
sent to the classifier. -/
def stripHtml (s : String) : String :=
  String.mk (trimWs (collapseWsAux (stripTagsAux s.toList)))

mutual

/-- `extractEmailBody` from the source (`dec` is
`Buffer.from(_, 'base64').toString('utf-8')`). -/
def extractEmailBody (dec : String → String) (p : Payload) : String :=
  if truthyOpt p.bodyData then dec ((p.bodyData).getD "")
  else
    match h : p.parts with
    | none => ""
    | some parts =>
      match parts.find? fun q =>
          (q.mimeType == "text/plain") && truthyOpt q.bodyData with
      | some q => dec ((q.bodyData).getD "")
      | none =>
        match parts.find? fun q =>
            (q.mimeType == "text/html") && truthyOpt q.bodyData with
        | some q => stripHtml (dec ((q.bodyData).getD ""))
        | none => extractEmailBodyLoop dec parts
termination_by sizeOf p
decreasing_by
  exact Payload.sizeOf_parts_lt p parts h

/-- The nested-parts pass of `extractEmailBody`: recurse into children
that themselves have `parts`, first non-empty result wins. -/
def extractEmailBodyLoop (dec : String → String) : List Payload → String
  | [] => ""
  | q :: rest =>
    if q.parts.isSome then
      let nested := extractEmailBody dec q
      if nested ≠ "" then nested else extractEmailBodyLoop dec rest
    else extractEmailBodyLoop dec rest
termination_by l => sizeOf l
decreasing_by
  all_goals simp
  omega

end

/-- The `if (!payload) return ''` guard of `extractEmailBody`. -/
def extractEmailBodyOpt (dec : String → String) : Option Payload → String
  | none => ""
  | some p => extractEmailBody dec p

/-! ## Classification forwarder (`/api/verify-invoice` and
`processEmailWithVerification`) -/

/-- The classifier verdict JSON of the FastAPI backend. -/
structure Verdict where
  success : Bool
  is_invoice : Bool
  confidence : Option ℚ
  message : String
  details : String
  deriving Repr, DecidableEq

/-- The classifier HTTP response when no network error occurred. -/
structure ClassifierResp where
  status : Nat
  verdict : Verdict
  deriving Repr, DecidableEq

/-- `Response.ok`: status in 200..299. -/
def statusOk (s : Nat) : Bool :=
  decide (200 ≤ s) && decide (s < 300)

/-- The `emailData` object `processEmailWithVerification` posts to the
verification route (it has no `user_uuid` key; external callers could
send one, hence the optional field). -/
structure EmailDataPayload where
  id : String
  threadId : String
  fromCombined : String
  toAddr : String
  snippet : String
  date : String
  isRead : Bool
  hasAttachments : Bool
  attachments : List EmailAttachment
  user_uuid : Option String
  deriving Repr, DecidableEq

/-- The parsed request of `POST /api/verify-invoice`. -/
structure VerifyReq where
  subject : String
  body : String
  attachment_filename : Option String
  emailData : Option EmailDataPayload
  userUuidHeader : Option String
  deriving Repr, DecidableEq

/-- The JSON payload of a 200 answer of the verification route
(the diagnostic `save_error` text is elided). -/
structure VerifyRespPayload where
  success : Bool
  is_invoice : Bool
  confidence : Option ℚ
  message : String
  details : String
  saved_to_db : Bool
  mail_uuid : Option String
  deriving Repr, DecidableEq

/-- A response of the verification route: error answers carry no
verdict payload. -/
structure VerifyResp where
  status : Nat
  payload : Option VerifyRespPayload
  deriving Repr, DecidableEq

/-- The mail body the verification route posts to `/api/mails`: of the
`MailSchema` keys, only `user_uuid` is present (zod strips the unknown
`email_id`, `thread_id`, … keys). -/
def mailBodyFromVerify (userUuid : String) : MailPostBody :=
  { uuid := none, user_uuid := some userUuid, scraped_data := none
    invoice_number := none, vendor_name := none, invoice_date := none
    total_amount := none, purchase_order := none, due_date := none
    gst_number := none, tax_amount := none }

/-- `POST /api/verify-invoice`: 400 when both subject and body are
falsy; a thrown classifier fetch becomes the 500 catch; a non-ok
classifier answer is passed through with its status; on a positive
verdict with `emailData` and a resolvable user uuid the route posts a
mail record to `/api/mails` and reports `saved_to_db`. -/
def verifyInvoicePOST (req : VerifyReq)
    (classifier : Except Unit ClassifierResp)
    (freshMailUuid : String) (db : Db) : VerifyResp × Db :=
  if req.subject == "" && req.body == "" then
    ({ status := 400, payload := none }, db)
  else
    match classifier with
    | .error _ => ({ status := 500, payload := none }, db)
    | .ok c =>
      if !statusOk c.status then
        ({ status := c.status, payload := none }, db)
      else
        let v := c.verdict
        match req.emailData with
        | some ed =>
          if v.is_invoice then
            let uu := orTruthy req.userUuidHeader ed.user_uuid
            if truthyOpt uu then
              let r := mailsPOST freshMailUuid (mailBodyFromVerify (uu.getD "")) db
              if statusOk r.1.1 then
                ({ status := 200, payload := some
                    { success := v.success, is_invoice := v.is_invoice
                      confidence := v.confidence, message := v.message
                      details := v.details, saved_to_db := true
                      mail_uuid := r.1.2.map (·.uuid) } }, r.2)
              else
                ({ status := 200, payload := some
                    { success := v.success, is_invoice := v.is_invoice
                      confidence := v.confidence, message := v.message
                      details := v.details, saved_to_db := false
                      mail_uuid := none } }, r.2)
            else
              ({ status := 200, payload := some
                  { success := v.success, is_invoice := v.is_invoice
                    confidence := v.confidence, message := v.message
                    details := v.details, saved_to_db := false
                    mail_uuid := none } }, db)
          else
            ({ status := 200, payload := some
                { success := v.success, is_invoice := v.is_invoice
                  confidence := v.confidence, message := v.message
                  details := v.details, saved_to_db := false
                  mail_uuid := none } }, db)
        | none =>
          ({ status := 200, payload := some
              { success := v.success, is_invoice := v.is_invoice
                confidence := v.confidence, message := v.message
                details := v.details, saved_to_db := false
                mail_uuid := none } }, db)

/-- The verification request `processEmailWithVerification` builds: the
lowercase subject header, the `extractEmailBody` text, the first
attachment's filename (or null), the `emailData` block, and the
`x-user-uuid` header carrying the session's profile uuid. -/
def verifyReqFor (enc dec : String → String)
    (splitAddr : String → Option (String × String))
    (userId profileUuid : String) (msg : RawMessage)
    (attEff : Nat → AttOutcome) : VerifyReq :=
  let pe := processEmail enc dec splitAddr userId msg attEff
  let subject :=
    match msg.payload.headers.find? fun h => lowerString h.1 == "subject" with
    | some h => h.2
    | none => ""
  let body := extractEmailBodyOpt dec (some msg.payload)
  let attachmentFilename :=
    match pe.attachments with
    | [] => none
    | a :: _ => if a.filename == "" then none else some a.filename
  let emailData : EmailDataPayload :=
    { id := pe.id, threadId := pe.threadId
      fromCombined := pe.fromName ++ " <" ++ pe.fromEmail ++ ">"
      toAddr := pe.toAddr, snippet := pe.snippet, date := pe.date
      isRead := pe.isRead, hasAttachments := pe.hasAttachments
      attachments := pe.attachments, user_uuid := none }
  { subject := subject, body := body
    attachment_filename := attachmentFilename
    emailData := some emailData, userUuidHeader := some profileUuid }

/-- `processEmailWithVerification`: process the message, then call the
verification route (modelled as a direct invocation of
`verifyInvoicePOST` with the `x-user-uuid` header set to the session's
profile uuid); a non-ok answer or a thrown call degrades to
`isInvoice = false, invoiceConfidence = null`. -/
def processEmailWithVerification (enc dec : String → String)
    (splitAddr : String → Option (String × String))
    (userId profileUuid : String) (msg : RawMessage)
    (attEff : Nat → AttOutcome) (classifier : Except Unit ClassifierResp)
    (freshMailUuid : String) (db : Db) : ProcessedEmail × Db :=
  let pe := processEmail enc dec splitAddr userId msg attEff
  let r := verifyInvoicePOST
    (verifyReqFor enc dec splitAddr userId profileUuid msg attEff)
    classifier freshMailUuid db
  if statusOk r.1.status then
    match r.1.payload with
    | some pl =>
      ({ pe with
          isInvoice := some pl.is_invoice
          invoiceConfidence :=
            match pl.confidence with
            | some q => if q == 0 then none else some q
            | none => none }, r.2)
    | none => ({ pe with isInvoice := some false, invoiceConfidence := none }, r.2)
  else
    ({ pe with isInvoice := some false, invoiceConfidence := none }, r.2)

/-- One listed message with its side-effect oracles. -/
structure PerMsg where
  msg : RawMessage
  attEff : Nat → AttOutcome
  classifier : Except Unit ClassifierResp
  freshMailUuid : String

/-- The JSON result of `GET /api/emails` (`invoiceCount` is absent from
the empty-mailbox early return). -/
structure GetEmailsResult where
  emails : List ProcessedEmail
  total : Nat
  unreadCount : Nat
  invoiceCount : Option Nat
  deriving Repr, DecidableEq

/-- The per-message fan-out of `getEmails` (the source's `Promise.all`,
sequentialized; each unit of work is independent). -/
def getEmailsGo (enc dec : String → String)
    (splitAddr : String → Option (String × String))
    (userId profileUuid : String) :
    List PerMsg → Db → List ProcessedEmail × Db
  | [], db => ([], db)
  | pm :: rest, db =>
    let r := processEmailWithVerification enc dec splitAddr userId profileUuid
      pm.msg pm.attEff pm.classifier pm.freshMailUuid db
    let rr := getEmailsGo enc dec splitAddr userId profileUuid rest r.2
    (r.1 :: rr.1, rr.2)

/-- `GET /api/emails` after authentication and profile backfill: map the
listed batch through `processEmailWithVerification`, or answer the fixed
empty result when the mailbox list is empty.
`resultSizeEstimate` is Gmail's list-response field. -/
def getEmails (enc dec : String → String)
    (splitAddr : String → Option (String × String))
    (userId profileUuid : String) (batch : List PerMsg)
    (resultSizeEstimate : Option Nat) (db : Db) : GetEmailsResult × Db :=
  match batch with
  | [] => ({ emails := [], total := 0, unreadCount := 0, invoiceCount := none }, db)
  | _ =>
    let r := getEmailsGo enc dec splitAddr userId profileUuid batch db
    ({ emails := r.1
       total :=
         match resultSizeEstimate with
         | some n => if n == 0 then r.1.length else n
         | none => r.1.length
       unreadCount := (r.1.filter fun e => !e.isRead).length
       invoiceCount := some (r.1.filter fun e => e.isInvoice == some true).length },
     r.2)

theorem verifyInvoicePOST_fail (req : VerifyReq)
    (cls : Except Unit ClassifierResp) (fresh : String) (db : Db)
    (hfail : cls = .error () ∨ ∃ c, cls = .ok c ∧ statusOk c.status = false) :
    statusOk (verifyInvoicePOST req cls fresh db).1.status = false
    ∧ (verifyInvoicePOST req cls fresh db).2 = db := by
  rcases hfail with hE | ⟨c, hok, hbad⟩
  · subst hE
    unfold verifyInvoicePOST
    by_cases h : (req.subject == "" && req.body == "") = true
    · rw [if_pos h]
      exact ⟨by show statusOk 400 = false; decide, rfl⟩
    · rw [if_neg h]
      exact ⟨by show statusOk 500 = false; decide, rfl⟩
  · subst hok
    unfold verifyInvoicePOST
    by_cases h : (req.subject == "" && req.body == "") = true
    · rw [if_pos h]
      exact ⟨by show statusOk 400 = false; decide, rfl⟩
    · rw [if_neg h]
      have hnot : (!statusOk c.status) = true := by
        rw [hbad]
        rfl
      dsimp only
      rw [if_pos hnot]
      exact ⟨hbad, rfl⟩

/-- C5: when the classifier call throws a network error or answers with a
non-2xx status, the message is still returned with `isInvoice = false`
and `invoiceConfidence = null`, and the `mails` collection — indeed the
whole database — is unchanged, so no mail record is persisted for the
message. -/
theorem c5_classifier_failure_degrades (enc dec : String → String)
    (splitAddr : String → Option (String × String))
    (userId profileUuid : String) (msg : RawMessage)
    (attEff : Nat → AttOutcome) (cls : Except Unit ClassifierResp)
    (fresh : String) (db : Db)
    (hfail : cls = .error () ∨ ∃ c, cls = .ok c ∧ statusOk c.status = false) :
    (processEmailWithVerification enc dec splitAddr userId profileUuid msg
        attEff cls fresh db).1.isInvoice = some false
    ∧ (processEmailWithVerification enc dec splitAddr userId profileUuid msg
        attEff cls fresh db).1.invoiceConfidence = none
    ∧ (processEmailWithVerification enc dec splitAddr userId profileUuid msg
        attEff cls fresh db).2 = db := by
  have hv := verifyInvoicePOST_fail
    (verifyReqFor enc dec splitAddr userId profileUuid msg attEff)
    cls fresh db hfail
  simp only [processEmailWithVerification]
  rw [hv.1]
  simp only [Bool.false_eq_true, ite_false]
  exact ⟨trivial, trivial, hv.2⟩

def c5msg : RawMessage :=
  { id := "m5", threadId := "t5", snippet := "sn"
    labelIds := some ["INBOX"]
    payload := .mk "text/plain" ""
      [("Subject", "Invoice 42"), ("From", "V <v@example.com>")]
      (some ⟨4, some "Ym9keQ", none⟩) none }

def c5db : Db := { profiles := [c4profile], mails := [] }

theorem c5_classifier_failure_degrades_witness :
    (processEmailWithVerification (fun s => s) (fun s => s) (fun _ => none)
        "u1" "11111111-1111-4111-8111-111111111111" c5msg
        (fun _ => .fetchErr) (.error ()) "f" c5db).1.isInvoice = some false
    ∧ (processEmailWithVerification (fun s => s) (fun s => s) (fun _ => none)
        "u1" "11111111-1111-4111-8111-111111111111" c5msg
        (fun _ => .fetchErr) (.error ()) "f" c5db).2 = c5db := by
  have h := c5_classifier_failure_degrades (fun s => s) (fun s => s)
    (fun _ => none) "u1" "11111111-1111-4111-8111-111111111111" c5msg
    (fun _ => .fetchErr) (.error ()) "f" c5db (Or.inl rfl)
  exact ⟨h.1, h.2.2⟩

theorem getEmailsGo_length (enc dec : String → String)
    (splitAddr : String → Option (String × String))
    (userId profileUuid : String) (l : List PerMsg) :
    ∀ db : Db,
      (getEmailsGo enc dec splitAddr userId profileUuid l db).1.length
        = l.length := by
  induction l with
  | nil => intro db; rfl
  | cons pm rest ih =>
    intro db
    unfold getEmailsGo
    simp only [List.length_cons]
    rw [ih]

/-- C2: `getEmails` returns exactly one processed entry per listed
message, whatever the per-message attachment or classification outcomes
are; and an empty mailbox list yields exactly
`{emails: [], total: 0, unreadCount: 0}` (no `invoiceCount` field) with
the database untouched. -/
theorem c2_batch_size_preserved (enc dec : String → String)
    (splitAddr : String → Option (String × String))
    (userId profileUuid : String) (batch : List PerMsg)
    (est : Option Nat) (db : Db) :
    (getEmails enc dec splitAddr userId profileUuid batch est db).1.emails.length
      = batch.length
    ∧ (batch = [] →
        getEmails enc dec splitAddr userId profileUuid batch est db
          = ({ emails := [], total := 0, unreadCount := 0,
               invoiceCount := none }, db)) := by
  constructor
  · cases batch with
    | nil => rfl
    | cons pm rest =>
      show (getEmailsGo enc dec splitAddr userId profileUuid (pm :: rest) db).1.length
        = (pm :: rest).length
      exact getEmailsGo_length enc dec splitAddr userId profileUuid (pm :: rest) db
  · intro hb
    subst hb
    rfl

theorem c2_batch_size_preserved_witness :
    getEmails (fun s => s) (fun s => s) (fun _ => none) "u1"
        "11111111-1111-4111-8111-111111111111" [] none c5db
      = ({ emails := [], total := 0, unreadCount := 0,
           invoiceCount := none }, c5db) :=
  (c2_batch_size_preserved (fun s => s) (fun s => s) (fun _ => none) "u1"
    "11111111-1111-4111-8111-111111111111" [] none c5db).2 rfl

theorem c9_find_or_create_idempotent_witness :
    (∃ p, (findOrCreateProfile "g-1" "u@example.com" "55555555-5555-4555-8555-555555555555" 7 []).1 = some p
      ∧ (findOrCreateProfile "g-1" "u@example.com" "66666666-6666-4666-8666-666666666666" 9
          (findOrCreateProfile "g-1" "u@example.com" "55555555-5555-4555-8555-555555555555" 7 []).2).1 = some p)
    ∧ (findOrCreateProfile "g-1" "u@example.com" "66666666-6666-4666-8666-666666666666" 9
        (findOrCreateProfile "g-1" "u@example.com" "55555555-5555-4555-8555-555555555555" 7 []).2).2
        = (findOrCreateProfile "g-1" "u@example.com" "55555555-5555-4555-8555-555555555555" 7 []).2
    ∧ countGoogleId "g-1"
        (findOrCreateProfile "g-1" "u@example.com" "55555555-5555-4555-8555-555555555555" 7 []).2
        = (if countGoogleId "g-1" ([] : List ProfileDoc) = 0 then 1
           else countGoogleId "g-1" ([] : List ProfileDoc)) :=
  c9_find_or_create_idempotent "g-1" "u@example.com"
    "55555555-5555-4555-8555-555555555555"
    "66666666-6666-4666-8666-666666666666" 7 9 [] (by simp)

end Paygo
